import Mathlib

/-!
Verification of the per-page, navigation-windowed event collection and
retention subsystem and the traffic fingerprinting engine of the
js-reverse-mcp repository (a Chrome DevTools MCP server).

Shallow embedding conventions:
* JS numbers used as counters/indices are modelled as `Nat`
  (`Number.MAX_SAFE_INTEGER` appears explicitly where overflow matters).
* JS arrays become `List`; `Array.prototype.unshift`/`splice`/`push`
  become list cons/`take`/`drop`/append.
* A JS `Map` becomes an insertion-ordered association list; `Map.set`
  updates an existing binding in place or appends a fresh one.
* Object identity (mutation through aliased references) is modelled with
  an explicit heap: records live in a `List` and references are indexes.
* JS strings are `String`; where character-level reasoning is needed we
  work on `String.data : List Char`.
-/

/-! ## Stable ID generator (`createIdGenerator`, PageCollector.ts:79-87) -/

/-- `Number.MAX_SAFE_INTEGER` = 2^53 - 1. -/
def maxSafeInteger : Nat := 9007199254740991

/-- One call of the closure returned by `createIdGenerator`:
`if (i === Number.MAX_SAFE_INTEGER) { i = 0; } return i++;`.
The state is the captured counter `i`; the result is the yielded id
together with the new counter. -/
def idGenStep (i : Nat) : Nat × Nat :=
  let j := if i = maxSafeInteger then 0 else i
  (j, j + 1)

/-- The id yielded by a call of the generator whose counter is `i`. -/
def idGenValue (i : Nat) : Nat := (idGenStep i).1

/-- The counter after a call of the generator whose counter was `i`. -/
def idGenNext (i : Nat) : Nat := (idGenStep i).2

/-- The generator counter after `n` calls (`let i = 1` initially). -/
def idGenStateAfter : Nat → Nat
  | 0 => 1
  | n + 1 => idGenNext (idGenStateAfter n)

/-- The id yielded by the `n`-th call (0-based) of a fresh generator. -/
def idGenOutput (n : Nat) : Nat := idGenValue (idGenStateAfter n)

/-! ## Generic resource collector (`PageCollector`, PageCollector.ts:94-262)

One tracked page; the `WeakMap` entry for that page is the state below. -/

/-- A collected item: the domain value together with the stable id stored
under `stableIdSymbol`.  Items produced by the collector always carry the
id (it is assigned in the collect callback before the item is stored), so
the symbol slot is not optional here. -/
structure Item (α : Type) where
  val : α
  stableId : Nat
deriving DecidableEq, Repr

/-- Per-page collector state: the epoch store (`storage`, newest epoch
first), the id-generator counter, and — as a specification-only observer —
the list of every item ever handed to the collect callback, in order. -/
structure CollectorState (α : Type) where
  storage : List (List (Item α))
  gen : Nat
  produced : List (Item α)
deriving Repr

/-- Retention constant `#maxNavigationSaved` (PageCollector.ts:100). -/
def maxNavigationSaved : Nat := 3

/-- `#initializePage`: storage seeded with one empty epoch, fresh
generator (counter 1). -/
def initCollector (α : Type) : CollectorState α :=
  { storage := [[]], gen := 1, produced := [] }

/-- The collect callback installed by `#initializePage`
(PageCollector.ts:164-170): tag the value with the next generated id and
push it onto the current epoch `navigations[0]`.  The `[]` branch is
unreachable for a tracked page (the epoch store always holds at least one
epoch); it leaves the state unchanged. -/
def collectItem {α : Type} (s : CollectorState α) (v : α) : CollectorState α :=
  let item : Item α := { val := v, stableId := idGenValue s.gen }
  { storage :=
      match s.storage with
      | [] => s.storage
      | e :: rest => (e ++ [item]) :: rest
    gen := idGenNext s.gen
    produced := s.produced ++ [item] }

/-- `PageCollector.splitAfterNavigation` (PageCollector.ts:187-195):
unshift a fresh empty epoch, then `navigations.splice(3)` truncates the
list to the first `maxNavigationSaved` epochs. -/
def splitAfterNavigation {α : Type} (s : CollectorState α) : CollectorState α :=
  { s with storage := (([] : List (Item α)) :: s.storage).take maxNavigationSaved }

/-- Iterated rotation (for statements about "any number of rotations"). -/
def rotateN {α : Type} : Nat → CollectorState α → CollectorState α
  | 0, s => s
  | n + 1, s => rotateN n (splitAfterNavigation s)

/-- `PageCollector.getData` (PageCollector.ts:207-224).  Without
`includePreservedData` the current epoch is returned; with it, the loop
`for (index = 3; index >= 0; index--) if (navigations[index]) push(...)`
concatenates the epochs at indexes 3, 2, 1, 0 that exist. -/
def getData {α : Type} (s : CollectorState α) (includePreservedData : Bool) :
    List (Item α) :=
  if !includePreservedData then s.storage.headD []
  else
    (((List.range (maxNavigationSaved + 1)).reverse.filterMap
      (fun i => s.storage.get? i)).flatten)

/-- `PageCollector.find` (PageCollector.ts:245-261): first match scanning
retained epochs newest-first. -/
def findInEpochs {α : Type} (p : Item α → Bool) :
    List (List (Item α)) → Option (Item α)
  | [] => none
  | e :: rest =>
    match e.find? p with
    | some x => some x
    | none => findInEpochs p rest

/-- `PageCollector.find` applied to the page's epoch store. -/
def findItem {α : Type} (s : CollectorState α) (p : Item α → Bool) :
    Option (Item α) :=
  findInEpochs p s.storage

/-- `PageCollector.getIdForResource` (PageCollector.ts:226-228). -/
def getIdForResource {α : Type} (x : Item α) : Nat := x.stableId

/-- `PageCollector.getById` (PageCollector.ts:230-243): `none` models the
thrown `Request not found` error. -/
def getById {α : Type} [DecidableEq α] (s : CollectorState α) (stableId : Nat) :
    Option (Item α) :=
  findItem s (fun item => item.stableId == stableId)

/-- Events a tracked page delivers to a generic collector: a collected
protocol item, or a main-frame navigation. -/
inductive CEvent (α : Type) where
  | collect (v : α)
  | navigate
deriving DecidableEq, Repr

/-- Dispatch of one event on the generic collector. -/
def cStep {α : Type} (s : CollectorState α) : CEvent α → CollectorState α
  | .collect v => collectItem s v
  | .navigate => splitAfterNavigation s

/-- The collector state after a sequence of events on a freshly tracked
page. -/
def cRun {α : Type} (events : List (CEvent α)) : CollectorState α :=
  events.foldl cStep (initCollector α)

/-- Number of `collect` events in a sequence. -/
def collectCount {α : Type} : List (CEvent α) → Nat
  | [] => 0
  | .collect _ :: rest => collectCount rest + 1
  | .navigate :: rest => collectCount rest

/-! ## Network specialization (`NetworkCollector`, PageCollector.ts:396-522) -/

/-- The fields of a puppeteer `HTTPRequest` that the epoch cut-point
consults: the identity of the frame that issued it (frames are modelled by
numeric identities) and `isNavigationRequest()`. -/
structure NRequest where
  frame : Nat
  isNavigationRequest : Bool
deriving DecidableEq, Repr

/-- The identity of `page.mainFrame()` for the modelled page. -/
def mainFrameId : Nat := 0

/-- The predicate passed to `findLastIndex`
(PageCollector.ts:500-504): on the main frame the request must be a
navigation request, off the main frame the answer is `false`. -/
def isMainFrameNavRequest (r : NRequest) : Bool :=
  if r.frame = mainFrameId then r.isNavigationRequest else false

/-- `Array.prototype.findLastIndex`: the index of the last element
satisfying `p`, `none` for the JS result -1. -/
def findLastIdx {α : Type} (p : α → Bool) : List α → Option Nat
  | [] => none
  | a :: l =>
    match findLastIdx p l with
    | some k => some (k + 1)
    | none => if p a then some 0 else none

/-- `NetworkCollector.splitAfterNavigation` (PageCollector.ts:492-521):
cut the current epoch at the most recent main-frame navigation request.
`requests.splice(lastRequestIdx)` removes and returns the tail from that
index, leaving the prefix behind; the tail is unshifted as the new current
epoch.  If no such request exists an empty epoch is unshifted.  Note that
this override performs no `splice(maxNavigationSaved)` truncation.  The
`[]` branch is unreachable for a tracked page. -/
def netSplitAfterNavigation (s : CollectorState NRequest) :
    CollectorState NRequest :=
  match s.storage with
  | [] => s
  | requests :: rest =>
    match findLastIdx (fun item => isMainFrameNavRequest item.val) requests with
    | some k => { s with storage := requests.drop k :: requests.take k :: rest }
    | none => { s with storage := [] :: requests :: rest }

/-- Dispatch of one event on the network collector: the `request` page
listener collects, `framenavigated` on the main frame runs the overridden
split. -/
def netStep (s : CollectorState NRequest) : CEvent NRequest → CollectorState NRequest
  | .collect v => collectItem s v
  | .navigate => netSplitAfterNavigation s

/-- The network collector state after a sequence of events on a freshly
tracked page. -/
def netRun (events : List (CEvent NRequest)) : CollectorState NRequest :=
  events.foldl netStep (initCollector NRequest)

/-! ## WebSocket collector (`WebSocketCollector`, src/unnamed/part_000)

The collector stores aggregate `WebSocketData` objects that are mutated in
place by later events, and the CDP listeners installed by
`#setupCdpListeners` capture the page's connection `Map` **by reference**
at setup time.  Both facts are modelled explicitly: connection records
live in a heap (`conns`, an object's identity is its index), and every
`Map` object ever bound in the `#connectionMap` WeakMap lives in `maps`,
with `storedMapRef` the index currently bound in the WeakMap and
`capturedMapRef` the index captured by the listener closures. -/

/-- `WebSocketStatus` (part_000:19).  `open` is written `opened` because
`open` is a Lean keyword. -/
inductive WSStatus where
  | connecting
  | opened
  | closed
deriving DecidableEq, Repr

/-- `WebSocketDirection` (part_000:24). -/
inductive WSDir where
  | sent
  | received
deriving DecidableEq, Repr

/-- `WebSocketFrame` (part_000:41-47).  Timestamps (already converted to
milliseconds) are modelled as `Nat`. -/
structure WSFrame where
  requestId : String
  direction : WSDir
  timestamp : Nat
  opcode : Nat
  payloadData : String
deriving DecidableEq, Repr

/-- `WebSocketConnection` (part_000:29-36), without the optional
initiator (never consulted by the collector logic). -/
structure WSConnection where
  requestId : String
  url : String
  status : WSStatus
  createdAt : Nat
  closedAt : Option Nat
deriving DecidableEq, Repr

/-- `WebSocketData` with its `stableIdSymbol` tag (part_000:52-61). -/
structure WSData where
  connection : WSConnection
  frames : List WSFrame
  stableId : Nat
deriving DecidableEq, Repr

/-- An insertion-ordered association list modelling a JS `Map`:
`Map.set` overwrites an existing binding in place, else appends. -/
def mapSet {β : Type} (k : String) (v : β) :
    List (String × β) → List (String × β)
  | [] => [(k, v)]
  | (k2, v2) :: rest =>
    if k2 = k then (k, v) :: rest else (k2, v2) :: mapSet k v rest

/-- `WebSocketCollector` state for one tracked page. -/
structure WSState where
  conns : List WSData
  storage : List (List Nat)
  maps : List (List (String × Nat))
  storedMapRef : Nat
  capturedMapRef : Nat
  gen : Nat
deriving Repr

/-- `addPage` + `#setupCdpListeners` (part_000:152-172): one empty epoch,
a fresh connection `Map` bound in the WeakMap and captured by the
listeners, generator counter 1. -/
def wsInit : WSState :=
  { conns := [], storage := [[]], maps := [[]], storedMapRef := 0
    capturedMapRef := 0, gen := 1 }

/-- The `Map` object the listener closures operate on. -/
def wsCapturedMap (s : WSState) : List (String × Nat) :=
  s.maps.getD s.capturedMapRef []

/-- The `Map` object currently bound in the `#connectionMap` WeakMap. -/
def wsStoredMap (s : WSState) : List (String × Nat) :=
  s.maps.getD s.storedMapRef []

/-- `onCreated` (part_000:174-196): allocate a `WebSocketData` with
status `connecting` and a fresh stable id, register it in the captured
connection map, push it onto the current epoch, then set its status to
`open` (mutating the already-stored object). -/
def wsOnCreated (s : WSState) (requestId url : String) (now : Nat) : WSState :=
  let wsData : WSData :=
    { connection :=
        { requestId := requestId, url := url, status := .connecting
          createdAt := now, closedAt := none }
      frames := [], stableId := idGenValue s.gen }
  let addr := s.conns.length
  let wsFinal : WSData :=
    { wsData with connection := { wsData.connection with status := .opened } }
  { s with
    conns := s.conns ++ [wsFinal]
    maps := s.maps.set s.capturedMapRef (mapSet requestId addr (wsCapturedMap s))
    storage :=
      match s.storage with
      | [] => s.storage
      | e :: rest => (e ++ [addr]) :: rest
    gen := idGenNext s.gen }

/-- Append a frame to the connection object at heap address `addr`.  The
`none` branch is unreachable: the connection map only holds addresses of
allocated objects. -/
def wsPushFrame (conns : List WSData) (addr : Nat) (fr : WSFrame) :
    List WSData :=
  match conns.get? addr with
  | none => conns
  | some w => conns.set addr { w with frames := w.frames ++ [fr] }

/-- `onFrameSent` (part_000:198-213): look the connection up in the
captured map; if absent, return (silently drop); otherwise push a frame
with direction `sent`. -/
def wsOnFrameSent (s : WSState) (requestId : String) (t opcode : Nat)
    (payload : String) : WSState :=
  match (wsCapturedMap s).lookup requestId with
  | none => s
  | some addr =>
    { s with
      conns := wsPushFrame s.conns addr
        { requestId := requestId, direction := .sent, timestamp := t
          opcode := opcode, payloadData := payload } }

/-- `onFrameReceived` (part_000:215-230): as `onFrameSent` with direction
`received`. -/
def wsOnFrameReceived (s : WSState) (requestId : String) (t opcode : Nat)
    (payload : String) : WSState :=
  match (wsCapturedMap s).lookup requestId with
  | none => s
  | some addr =>
    { s with
      conns := wsPushFrame s.conns addr
        { requestId := requestId, direction := .received, timestamp := t
          opcode := opcode, payloadData := payload } }

/-- Set the status of the connection object at heap address `addr` to
`closed` and record the close time. -/
def wsCloseConn (conns : List WSData) (addr : Nat) (t : Nat) : List WSData :=
  match conns.get? addr with
  | none => conns
  | some w =>
    conns.set addr
      { w with connection := { w.connection with status := .closed, closedAt := some t } }

/-- `onClosed` (part_000:232-240): look the connection up in the captured
map; if absent, return; otherwise mark it closed. -/
def wsOnClosed (s : WSState) (requestId : String) (t : Nat) : WSState :=
  match (wsCapturedMap s).lookup requestId with
  | none => s
  | some addr => { s with conns := wsCloseConn s.conns addr t }

/-- `#splitAfterNavigation` (part_000:265-277): unshift an empty epoch,
truncate the epoch list to `#maxNavigationSaved`, and bind a brand-new
empty `Map` in the `#connectionMap` WeakMap.  The listener closures keep
the map they captured at setup — only `storedMapRef` moves. -/
def wsSplitAfterNavigation (s : WSState) : WSState :=
  { s with
    storage := (([] : List Nat) :: s.storage).take maxNavigationSaved
    maps := s.maps ++ [[]]
    storedMapRef := s.maps.length }

/-- `WebSocketCollector.getData` (part_000:303-320): same epoch loop as
the generic collector, yielding the stored connection references. -/
def wsGetData (s : WSState) (includePreservedData : Bool) : List Nat :=
  if !includePreservedData then s.storage.headD []
  else
    (((List.range (maxNavigationSaved + 1)).reverse.filterMap
      (fun i => s.storage.get? i)).flatten)

/-- CDP events delivered to the WebSocket collector. -/
inductive WSEvent where
  | created (requestId url : String) (now : Nat)
  | frameSent (requestId : String) (t opcode : Nat) (payload : String)
  | frameReceived (requestId : String) (t opcode : Nat) (payload : String)
  | closedEvt (requestId : String) (t : Nat)
  | navigated
deriving DecidableEq, Repr

/-- Dispatch of one CDP event (main-frame `framenavigated` triggers the
split, part_000:242-254). -/
def wsStep (s : WSState) : WSEvent → WSState
  | .created rid url now => wsOnCreated s rid url now
  | .frameSent rid t op p => wsOnFrameSent s rid t op p
  | .frameReceived rid t op p => wsOnFrameReceived s rid t op p
  | .closedEvt rid t => wsOnClosed s rid t
  | .navigated => wsSplitAfterNavigation s

/-- The WebSocket collector state after a sequence of CDP events on a
freshly tracked page. -/
def wsRun (events : List WSEvent) : WSState :=
  events.foldl wsStep wsInit

/-! ## Traffic fingerprint engine (DebuggerContext.ts:1682-1909)

Hex strings and group keys are handled as `List Char` (`String.data`
images); JS `Map` keys compare exactly like `List Char` equality. -/

/-- `SizeCategory` labels. -/
inductive SizeCategory where
  | tiny
  | small
  | medium
  | large
  | xlarge
deriving DecidableEq, Repr

/-- `getSizeCategory` (DebuggerContext.ts:1717-1723). -/
def getSizeCategory (size : Nat) : SizeCategory :=
  if size < 32 then .tiny
  else if size < 128 then .small
  else if size < 512 then .medium
  else if size < 2048 then .large
  else .xlarge

/-- A single lowercase hex digit, as produced by
`Number.prototype.toString(16)`. -/
def hexDigitChar (n : Nat) : Char :=
  if n < 10 then Char.ofNat (48 + n) else Char.ofNat (87 + n)

/-- `n.toString(16)`: lowercase hex digits, no leading zeros.  The first
argument is fuel: the value shrinks by a factor 16 each step, so fuel `n`
always suffices (`natToHex` below supplies it) and the fuel-exhausted
branch is unreachable. -/
def natToHexAux : Nat → Nat → List Char
  | 0, n => [hexDigitChar (n % 16)]
  | fuel + 1, n =>
    if n < 16 then [hexDigitChar n]
    else natToHexAux fuel (n / 16) ++ [hexDigitChar (n % 16)]

/-- `n.toString(16)`. -/
def natToHex (n : Nat) : List Char := natToHexAux n n

/-- `.padStart(2, '0')`. -/
def padStart2 (l : List Char) : List Char :=
  if l.length < 2 then List.replicate (2 - l.length) '0' ++ l else l

/-- `charCodeAt(i).toString(16).padStart(2, '0')` for one UTF-16 code
unit (code points are used; the collectors only ever see BMP text here). -/
def charHex (c : Char) : List Char := padStart2 (natToHex c.toNat)

/-- The value of a base64 alphabet character, `none` outside the
alphabet. -/
def base64CharVal (c : Char) : Option Nat :=
  if 'A' ≤ c ∧ c ≤ 'Z' then some (c.toNat - 65)
  else if 'a' ≤ c ∧ c ≤ 'z' then some (c.toNat - 97 + 26)
  else if '0' ≤ c ∧ c ≤ '9' then some (c.toNat - 48 + 52)
  else if c = '+' then some 62
  else if c = '/' then some 63
  else none

/-- Reassemble 6-bit values into bytes (2 values → 1 byte, 3 → 2,
4 → 3). -/
def b64Chunk : List Nat → List Nat
  | [a, b] => [a * 4 + b / 16]
  | [a, b, c] => [a * 4 + b / 16, b % 16 * 16 + c / 4]
  | [a, b, c, d] => [a * 4 + b / 16, b % 16 * 16 + c / 4, c % 4 * 64 + d]
  | _ => []

/-- Decode a stream of 6-bit values into bytes; a single leftover value
is invalid base64. -/
def b64Groups : List Nat → Option (List Nat)
  | [] => some []
  | [_] => none
  | [a, b] => some (b64Chunk [a, b])
  | [a, b, c] => some (b64Chunk [a, b, c])
  | a :: b :: c :: d :: rest => (b64Groups rest).map (fun t => b64Chunk [a, b, c, d] ++ t)

/-- Models the platform `atob`: strip trailing `=` padding, map the
remaining characters through the base64 alphabet, reassemble bytes;
`none` models the thrown `InvalidCharacterError`. -/
def atobBytes (s : String) : Option (List Nat) :=
  let body := (s.data.reverse.dropWhile (fun c => c = '=')).reverse
  match body.mapM base64CharVal with
  | none => none
  | some vals => b64Groups vals

/-- `base64ToHex` (DebuggerContext.ts:1685-1696): hex of the first
`maxBytes` decoded bytes, `""` when `atob` throws. -/
def base64ToHex (s : String) (maxBytes : Nat) : List Char :=
  match atobBytes s with
  | none => []
  | some bytes => ((bytes.take maxBytes).map (fun b => padStart2 (natToHex b))).flatten

/-- The regex test `payload.match(/^[A-Za-z0-9+/]+=*$/)`: one or more
base64 alphabet characters followed only by `=` signs. -/
def looksBase64 (s : String) : Bool :=
  let body := (s.data.reverse.dropWhile (fun c => c = '=')).reverse
  decide (0 < body.length) && body.all (fun c => (base64CharVal c).isSome)

/-- `getHead4B` (DebuggerContext.ts:1701-1712): binary or base64-looking
payloads are decoded first; text payloads contribute the hex of their
first 4 code units. -/
def getHead4B (payload : String) (opcode : Nat) : List Char :=
  if opcode = 2 || looksBase64 payload then base64ToHex payload 4
  else ((payload.data.take 4).map charHex).flatten

/-- The numeric value of a hex digit; non-digits give 0 (the `NaN`
branches of `parseInt` never make the MsgPack range test succeed, and 0
does not either). -/
def hexCharVal (c : Char) : Nat :=
  if '0' ≤ c ∧ c ≤ '9' then c.toNat - 48
  else if 'a' ≤ c ∧ c ≤ 'f' then c.toNat - 87
  else if 'A' ≤ c ∧ c ≤ 'F' then c.toNat - 55
  else 0

/-- `parseInt(head4B.slice(0, 2), 16)` restricted to the places it is
used: the value of the first byte of the fingerprint. -/
def parseHex2 : List Char → Nat
  | a :: b :: _ => hexCharVal a * 16 + hexCharVal b
  | [a] => hexCharVal a
  | [] => 0

/-- Does `l` start with the characters of `pre`? (`String.startsWith` on
the char-list representation.) -/
def headStartsWith (pre l : List Char) : Bool :=
  decide (l.take pre.length = pre)

/-- `guessHintFromHead` (DebuggerContext.ts:1728-1765). -/
def guessHintFromHead (head4B : List Char) : List Char :=
  if head4B = [] then "-".data
  else if headStartsWith "1f8b".data head4B then "Gzip".data
  else if headStartsWith "08".data head4B || headStartsWith "0a".data head4B ||
      headStartsWith "10".data head4B || headStartsWith "12".data head4B ||
      headStartsWith "18".data head4B || headStartsWith "1a".data head4B ||
      headStartsWith "20".data head4B || headStartsWith "22".data head4B then
    "Protobuf".data
  else if headStartsWith "7b".data head4B || headStartsWith "5b".data head4B then
    "JSON".data
  else if 128 ≤ parseHex2 (head4B.take 2) ∧ parseHex2 (head4B.take 2) ≤ 191 then
    "MsgPack".data
  else if head4B = "28b52ffd".data then "Zstd".data
  else if head4B = "70696e67".data then "ping".data
  else if head4B = "706f6e67".data then "pong".data
  else "-".data

/-- `generateGroupId` (DebuggerContext.ts:1801-1809), a do-while loop:
emit `A` + (n mod 26), then continue with `floor(n / 26) - 1` while that
is non-negative.  The first argument is fuel: the loop variable strictly
decreases, so fuel `n` always suffices (`generateGroupId` below supplies
it); the fuel-exhausted branch is unreachable. -/
def generateGroupIdAux : Nat → Nat → List Char
  | 0, n => [Char.ofNat (65 + n % 26)]
  | fuel + 1, n =>
    if n / 26 = 0 then [Char.ofNat (65 + n % 26)]
    else generateGroupIdAux fuel (n / 26 - 1) ++ [Char.ofNat (65 + n % 26)]

/-- `generateGroupId` at rank `index` (0 → `A`, 26 → `AA`, ...). -/
def generateGroupId (index : Nat) : List Char :=
  generateGroupIdAux index index

/-- The accumulator entry of the `groupMap` in
`analyzeWebSocketFramesV2` (DebuggerContext.ts:1835-1868). -/
structure GroupAcc where
  direction : WSDir
  head4B : List Char
  sizeCategory : SizeCategory
  indices : List Nat
  minSize : Nat
  maxSize : Nat
deriving DecidableEq, Repr

/-- The serialization of a direction inside a template literal. -/
def dirChars : WSDir → List Char
  | .sent => "sent".data
  | .received => "received".data

/-- The serialization of a size category inside a template literal. -/
def catChars : SizeCategory → List Char
  | .tiny => "tiny".data
  | .small => "small".data
  | .medium => "medium".data
  | .large => "large".data
  | .xlarge => "xlarge".data

/-- The group key `` `${direction}:${head4B}:${sizeCategory}` ``. -/
def mkKey (d : WSDir) (h : List Char) (c : SizeCategory) : List Char :=
  dirChars d ++ ':' :: (h ++ ':' :: catChars c)

/-- The key computed for one frame (DebuggerContext.ts:1848-1851). -/
def frameKey (f : WSFrame) : List Char :=
  mkKey f.direction (getHead4B f.payloadData f.opcode)
    (getSizeCategory f.payloadData.length)

/-- One iteration of the `frames.forEach` grouping loop: create the
group on first sight of its key, then push the index and fold min/max
sizes.  `Map` insertion order is preserved; an update keeps the entry in
place. -/
def upsertFrame (key : List Char) (f : WSFrame) (index : Nat) :
    List (List Char × GroupAcc) → List (List Char × GroupAcc)
  | [] =>
    [(key,
      { direction := f.direction
        head4B := getHead4B f.payloadData f.opcode
        sizeCategory := getSizeCategory f.payloadData.length
        indices := [index]
        minSize := f.payloadData.length
        maxSize := f.payloadData.length })]
  | (k, g) :: rest =>
    if k = key then
      (k,
        { g with
          indices := g.indices ++ [index]
          minSize := min g.minSize f.payloadData.length
          maxSize := max g.maxSize f.payloadData.length }) :: rest
    else (k, g) :: upsertFrame key f index rest

/-- The grouping loop over an indexed frame list. -/
def buildGroupsAux (acc : List (List Char × GroupAcc)) :
    List (Nat × WSFrame) → List (List Char × GroupAcc)
  | [] => acc
  | (i, f) :: rest => buildGroupsAux (upsertFrame (frameKey f) f i acc) rest

/-- The contents of `groupMap` after `frames.forEach(...)`. -/
def buildGroups (frames : List WSFrame) : List (List Char × GroupAcc) :=
  buildGroupsAux [] frames.enum

/-- `MessageGroupV2`. -/
structure MessageGroupV2 where
  id : List Char
  direction : WSDir
  head4B : List Char
  sizeCategory : SizeCategory
  count : Nat
  minSize : Nat
  maxSize : Nat
  hint : List Char
  sampleIndices : List Nat
deriving DecidableEq, Repr

/-- `TrafficSummary`. -/
structure TrafficSummary where
  wsid : Nat
  url : String
  durationMs : Int
  totalFrames : Nat
  sentCount : Nat
  receivedCount : Nat
  groups : List MessageGroupV2
  groupToIndices : List (List Char × List Nat)
deriving DecidableEq, Repr

/-- The comparator `(a, b) => b[1].indices.length - a[1].indices.length`
as an ordering relation: descending count.  `Array.prototype.sort` is a
stable comparator sort; it is modelled by the stable, structurally
recursive `List.insertionSort`, which agrees with any stable sort under
this total relation. -/
def groupCountGe (a b : (List Char × GroupAcc)) : Prop :=
  b.2.indices.length ≤ a.2.indices.length

instance : DecidableRel groupCountGe :=
  fun a b => Nat.decLe b.2.indices.length a.2.indices.length

/-- `analyzeWebSocketFramesV2` (DebuggerContext.ts:1818-1909). -/
def analyzeWebSocketFramesV2 (frames : List WSFrame) (wsid : Nat)
    (url : String) : TrafficSummary :=
  let sentCount := (frames.filter (fun f => f.direction == WSDir.sent)).length
  let receivedCount := (frames.filter (fun f => f.direction == WSDir.received)).length
  let durationMs : Int :=
    if 1 < frames.length then
      ((frames.getLast?.map WSFrame.timestamp).getD 0 : Int) -
        ((frames.head?.map WSFrame.timestamp).getD 0 : Int)
    else 0
  let groupEntries := (buildGroups frames).insertionSort groupCountGe
  let groups : List MessageGroupV2 :=
    groupEntries.enum.map (fun p =>
      { id := generateGroupId p.1
        direction := p.2.2.direction
        head4B := p.2.2.head4B
        sizeCategory := p.2.2.sizeCategory
        count := p.2.2.indices.length
        minSize := p.2.2.minSize
        maxSize := p.2.2.maxSize
        hint := guessHintFromHead p.2.2.head4B
        sampleIndices := p.2.2.indices.take 3 })
  let groupToIndices : List (List Char × List Nat) :=
    groupEntries.enum.map (fun p => (generateGroupId p.1, p.2.2.indices))
  { wsid := wsid
    url := url
    durationMs := durationMs
    totalFrames := frames.length
    sentCount := sentCount
    receivedCount := receivedCount
    groups := groups
    groupToIndices := groupToIndices }

/-- The byte length of a base64-encoded payload, following the words of
the specification ("size bucket from payload byte length" for "binary
frames whose payload arrives base64-encoded"): the number of bytes the
payload decodes to.  This is the specification-side definition used to
compare against what the code computes. -/
def base64ByteLength (s : String) : Nat :=
  ((atobBytes s).map List.length).getD 0

/-! ## Helper lemmas -/

theorem idGenStateAfter_eq (n : Nat) :
    idGenStateAfter n = n % maxSafeInteger + 1 := by
  induction n with
  | zero => simp [idGenStateAfter, maxSafeInteger]
  | succ n ih =>
    simp only [idGenStateAfter, ih, idGenNext, idGenStep, maxSafeInteger]
    split_ifs with h
    · omega
    · omega

theorem idGenOutput_eq (n : Nat) :
    idGenOutput n =
      if n % maxSafeInteger = maxSafeInteger - 1 then 0
      else n % maxSafeInteger + 1 := by
  simp only [idGenOutput, idGenValue, idGenStep, idGenStateAfter_eq, maxSafeInteger]
  split_ifs with h1 h2 h2
  · rfl
  · omega
  · omega
  · rfl

theorem findLastIdx_eq_none {α : Type} (p : α → Bool) (l : List α)
    (h : ∀ a ∈ l, p a = false) : findLastIdx p l = none := by
  induction l with
  | nil => rfl
  | cons a l ih =>
    simp only [findLastIdx, ih (fun x hx => h x (List.mem_cons_of_mem a hx)),
      h a (List.mem_cons_self a l)]
    simp

/-! ## Claim theorems -/

/-- C5 counterexample: the claim says the generator never yields 0 and
wraps back to 1; in fact the call made when the counter has reached
`Number.MAX_SAFE_INTEGER` — the `(maxSafeInteger - 1)`-th call (0-based)
of a fresh generator — yields 0. -/
theorem idGen_yields_zero_at_wraparound :
    idGenOutput (maxSafeInteger - 1) = 0 := by
  rw [idGenOutput_eq]
  simp [maxSafeInteger]

/-- C5 (amended): every identifier the per-page generator produces is a
natural number below `Number.MAX_SAFE_INTEGER`; the sequence is 1, 2, …,
`MAX_SAFE_INTEGER - 1`, then 0 at the wraparound call, after which it
resumes at 1 — so the generator yields 0 exactly at wraparound and never
yields `MAX_SAFE_INTEGER`. -/
theorem idGen_output_characterization (n : Nat) :
    idGenOutput n =
      (if n % maxSafeInteger = maxSafeInteger - 1 then 0
       else n % maxSafeInteger + 1)
    ∧ idGenOutput n < maxSafeInteger := by
  refine ⟨idGenOutput_eq n, ?_⟩
  rw [idGenOutput_eq]
  have := Nat.mod_lt n (y := maxSafeInteger) (by simp [maxSafeInteger])
  split_ifs with h
  · simp [maxSafeInteger]
  · simp only [maxSafeInteger] at *
    omega

/-- C1: the Network cut-point.  If the current epoch is
`[r1, r2, r3, r4, r5]` and `r3` is the most recent main-frame navigation
request in it, the rotation makes `[r3, r4, r5]` the new current epoch
(order preserved) and leaves `[r1, r2]` behind as the previous epoch; if
the current epoch contains no main-frame navigation request, an empty new
epoch is pushed instead. -/
theorem network_cut_point
    (r1 r2 r3 r4 r5 : Item NRequest) (rest : List (List (Item NRequest)))
    (gen : Nat) (produced : List (Item NRequest))
    (h3 : isMainFrameNavRequest r3.val = true)
    (h4 : isMainFrameNavRequest r4.val = false)
    (h5 : isMainFrameNavRequest r5.val = false) :
    (netSplitAfterNavigation
        { storage := [r1, r2, r3, r4, r5] :: rest, gen := gen, produced := produced }).storage
      = [r3, r4, r5] :: [r1, r2] :: rest
    ∧ ∀ (e : List (Item NRequest)) (rest2 : List (List (Item NRequest))),
        (∀ r ∈ e, isMainFrameNavRequest r.val = false) →
        (netSplitAfterNavigation
            { storage := e :: rest2, gen := gen, produced := produced }).storage
          = [] :: e :: rest2 := by
  constructor
  · simp [netSplitAfterNavigation, findLastIdx, h3, h4, h5]
  · intro e rest2 he
    have hnone : findLastIdx (fun item => isMainFrameNavRequest item.val) e = none :=
      findLastIdx_eq_none _ e (fun a ha => he a ha)
    simp [netSplitAfterNavigation, hnone]

/-- C1 witness: the cut-point theorem applied to a concrete epoch of five
requests whose third entry is the only main-frame navigation request, and
the empty-cut fallback applied to an epoch holding one subframe request. -/
theorem network_cut_point_witness :
    (netSplitAfterNavigation
        { storage :=
            [⟨⟨1, false⟩, 1⟩, ⟨⟨0, false⟩, 2⟩, ⟨⟨0, true⟩, 3⟩,
             ⟨⟨0, false⟩, 4⟩, ⟨⟨1, false⟩, 5⟩] :: [], gen := 6, produced := [] }).storage
      = [⟨⟨0, true⟩, 3⟩, ⟨⟨0, false⟩, 4⟩, ⟨⟨1, false⟩, 5⟩] :: [⟨⟨1, false⟩, 1⟩, ⟨⟨0, false⟩, 2⟩] :: []
    ∧ (netSplitAfterNavigation
        { storage := [(⟨⟨1, false⟩, 1⟩ : Item NRequest)] :: [], gen := 2, produced := [] }).storage
      = [] :: [⟨⟨1, false⟩, 1⟩] :: [] := by
  have h := network_cut_point ⟨⟨1, false⟩, 1⟩ ⟨⟨0, false⟩, 2⟩ ⟨⟨0, true⟩, 3⟩
    ⟨⟨0, false⟩, 4⟩ ⟨⟨1, false⟩, 5⟩ [] 6 [] (by decide) (by decide) (by decide)
  exact ⟨h.1, (network_cut_point ⟨⟨1, false⟩, 1⟩ ⟨⟨0, false⟩, 2⟩ ⟨⟨0, true⟩, 3⟩
    ⟨⟨0, false⟩, 4⟩ ⟨⟨1, false⟩, 5⟩ [] 2 [] (by decide) (by decide) (by decide)).2
    [⟨⟨1, false⟩, 1⟩] [] (by decide)⟩

/-- The event sequence exhibiting the missing retention truncation in
`NetworkCollector.splitAfterNavigation`: one request issued by a subframe,
followed by four main-frame navigations (none of whose epochs contain a
main-frame navigation request, so each rotation unshifts an empty epoch —
and, unlike the base class, never calls `splice(maxNavigationSaved)`). -/
def retentionBugEvents : List (CEvent NRequest) :=
  [.collect ⟨1, false⟩, .navigate, .navigate, .navigate, .navigate]

/-- C2: evaluation of the code at the failing input.  After 4 navigations
the network collector retains 5 epochs (the claimed bound is
`maxNavigationSaved = 3`), and the item from the oldest epoch — which the
claim says must be unreachable by every query — is still returned by
`getById`, while `getData(page, true)` no longer reports it at all. -/
theorem network_retention_violation :
    (netRun retentionBugEvents).storage.length = 5
    ∧ maxNavigationSaved = 3
    ∧ getById (netRun retentionBugEvents) 1 = some ⟨⟨1, false⟩, 1⟩
    ∧ getData (netRun retentionBugEvents) true = [] := by
  decide

/-- The event sequence exhibiting the stale connection-map closure in
`WebSocketCollector`: a connection is created, the page navigates (the
split binds a brand-new `Map` in the `#connectionMap` WeakMap), then a
`webSocketFrameSent` event for the pre-navigation connection id arrives. -/
def staleMapEvents : List WSEvent :=
  [.created "c1" "ws://a" 0, .navigated, .frameSent "c1" 5 1 "hi"]

/-- C3: evaluation of the code at the failing input.  The rotation did
reset the map bound in the WeakMap (it is empty), but the CDP listeners
still hold the map captured at setup, where "c1" is still registered; the
frame-sent event therefore finds the pre-navigation connection — now in
the previous epoch — and appends the frame to it instead of being
dropped. -/
theorem ws_stale_lookup_after_rotation :
    ((wsRun staleMapEvents).conns.get? 0).map (fun w => w.frames.length) = some 1
    ∧ (wsRun staleMapEvents).storage = [[], [0]]
    ∧ wsStoredMap (wsRun staleMapEvents) = []
    ∧ (wsCapturedMap (wsRun staleMapEvents)).lookup "c1" = some 0 := by
  refine ⟨rfl, rfl, rfl, ?_⟩
  decide

/-- C9: a frame-sent, frame-received, or closed event whose connection id
has no entry in the connection lookup table the listeners consult leaves
the collector state — every epoch, every connection record, every map —
exactly unchanged (and, being total functions, the handlers cannot
raise). -/
theorem ws_unknown_connection_noop (s : WSState) (rid : String)
    (t op : Nat) (p : String)
    (h : (wsCapturedMap s).lookup rid = none) :
    wsOnFrameSent s rid t op p = s
    ∧ wsOnFrameReceived s rid t op p = s
    ∧ wsOnClosed s rid t = s := by
  refine ⟨?_, ?_, ?_⟩
  · simp [wsOnFrameSent, h]
  · simp [wsOnFrameReceived, h]
  · simp [wsOnClosed, h]

/-- C9 witness: the no-op theorem applied to the state holding one
connection "a" and an event for the unknown connection id "b". -/
theorem ws_unknown_connection_noop_witness :
    (wsCapturedMap (wsRun [.created "a" "u" 0])).lookup "b" = none
    ∧ wsOnFrameSent (wsRun [.created "a" "u" 0]) "b" 1 1 "x" = wsRun [.created "a" "u" 0]
    ∧ wsOnFrameReceived (wsRun [.created "a" "u" 0]) "b" 1 1 "x" = wsRun [.created "a" "u" 0]
    ∧ wsOnClosed (wsRun [.created "a" "u" 0]) "b" 1 = wsRun [.created "a" "u" 0] := by
  have hnone : (wsCapturedMap (wsRun [.created "a" "u" 0])).lookup "b" = none := by decide
  have h := ws_unknown_connection_noop (wsRun [.created "a" "u" 0]) "b" 1 1 "x" hnone
  exact ⟨hnone, h.1, h.2.1, h.2.2⟩

theorem flatten_take_subset {β : Type} (l : List (List β)) (n : Nat)
    (x : β) (h : x ∈ (l.take n).flatten) : x ∈ l.flatten := by
  rw [List.mem_flatten] at *
  obtain ⟨e, he, hx⟩ := h
  exact ⟨e, (List.take_sublist n l).mem he, hx⟩

theorem cRun_gen_produced {α : Type} (events : List (CEvent α)) :
    ∀ (s : CollectorState α),
      s.gen = s.produced.length + 1 →
      s.produced.length + collectCount events + 1 ≤ maxSafeInteger →
      (events.foldl cStep s).produced.map Item.stableId
          = s.produced.map Item.stableId ++ List.range' s.gen (collectCount events)
      ∧ (events.foldl cStep s).gen = s.gen + collectCount events
      ∧ (events.foldl cStep s).produced.length
          = s.produced.length + collectCount events := by
  induction events with
  | nil => intro s hg _; simp [collectCount]
  | cons e rest ih =>
    intro s hg hbound
    cases e with
    | collect v =>
      have hlt : s.gen ≠ maxSafeInteger := by
        simp only [collectCount] at hbound
        omega
      have hval : idGenValue s.gen = s.gen := by
        simp [idGenValue, idGenStep, hlt]
      have hnext : idGenNext s.gen = s.gen + 1 := by
        simp [idGenNext, idGenStep, hlt]
      have hstep : (cStep s (CEvent.collect v)).produced
          = s.produced ++ [⟨v, s.gen⟩] := by
        simp [cStep, collectItem, hval]
      have hgen2 : (cStep s (CEvent.collect v)).gen = s.gen + 1 := by
        simp [cStep, collectItem, hnext]
      have hcc : collectCount (CEvent.collect v :: rest) = collectCount rest + 1 := rfl
      have h1 : (cStep s (CEvent.collect v)).gen
          = (cStep s (CEvent.collect v)).produced.length + 1 := by
        rw [hstep, hgen2, List.length_append, hg]; rfl
      have h2 : (cStep s (CEvent.collect v)).produced.length
          + collectCount rest + 1 ≤ maxSafeInteger := by
        rw [hstep, List.length_append]
        simp only [hcc] at hbound
        simpa using by omega
      obtain ⟨ha, hb, hc⟩ := ih (cStep s (CEvent.collect v)) h1 h2
      refine ⟨?_, ?_, ?_⟩
      · rw [List.foldl_cons, ha, hstep, hgen2, hcc, List.range'_succ]
        simp
      · rw [List.foldl_cons, hb, hgen2, hcc]; omega
      · rw [List.foldl_cons, hc, hstep, List.length_append, hcc]
        simp; omega
    | navigate =>
      have hstep : cStep s CEvent.navigate
          = { s with storage := (([] : List (Item α)) :: s.storage).take maxNavigationSaved } := rfl
      have hcc : collectCount (CEvent.navigate :: rest) = collectCount rest := rfl
      obtain ⟨ha, hb, hc⟩ := ih (cStep s CEvent.navigate) (by rw [hstep]; exact hg)
        (by rw [hstep]; simpa [hcc] using hbound)
      exact ⟨by rw [List.foldl_cons, ha, hstep, hcc], by rw [List.foldl_cons, hb, hstep, hcc],
        by rw [List.foldl_cons, hc, hstep, hcc]⟩

theorem cRun_storage_in_produced {α : Type} (events : List (CEvent α)) :
    ∀ (s : CollectorState α),
      (∀ x ∈ s.storage.flatten, x ∈ s.produced) →
      ∀ x ∈ (events.foldl cStep s).storage.flatten,
        x ∈ (events.foldl cStep s).produced := by
  induction events with
  | nil => intro s h; exact h
  | cons e rest ih =>
    intro s h
    refine ih (cStep s e) ?_
    cases e with
    | collect v =>
      intro x hx
      simp only [cStep, collectItem] at hx ⊢
      rcases hs : s.storage with _ | ⟨ep, rest2⟩
      · rw [hs] at hx
        exact List.mem_append_left _ (h x (by rw [hs]; exact hx))
      · rw [hs] at hx
        simp only [List.flatten_cons, List.mem_append] at hx
        rcases hx with (hx | hx) | hx
        · exact List.mem_append_left _ (h x (by rw [hs]; simp [hx]))
        · exact List.mem_append_right _ hx
        · exact List.mem_append_left _ (h x (by rw [hs]; simp [hx]))
    | navigate =>
      intro x hx
      simp only [cStep, splitAfterNavigation] at hx ⊢
      have := flatten_take_subset _ _ _ hx
      simp only [List.flatten_cons, List.nil_append] at this
      exact h x this

theorem rotateN_storage_subset {α : Type} (n : Nat) :
    ∀ (s : CollectorState α) (x : Item α),
      x ∈ (rotateN n s).storage.flatten → x ∈ s.storage.flatten := by
  induction n with
  | zero => intro s x hx; exact hx
  | succ n ih =>
    intro s x hx
    have := ih (splitAfterNavigation s) x hx
    simp only [splitAfterNavigation] at this
    have := flatten_take_subset _ _ _ this
    simpa using this

/-- C4: stable-ID stability and uniqueness.  For any event sequence with
fewer than `MAX_SAFE_INTEGER` collected items (no generator wraparound):
the ids of all produced items are pairwise distinct (so `idOf` separates
any two distinct items), every item held in the epoch store is one of the
produced records — carrying the id assigned at its creation — and any
further number of navigation rotations only ever drops stored items,
never altering one, so `getIdForResource` returns the same value for an
item before and after any number of rotations. -/
theorem stable_id_stability_and_uniqueness {α : Type} (events : List (CEvent α))
    (h : collectCount events ≤ maxSafeInteger - 1) :
    ((cRun events).produced.map getIdForResource).Nodup
    ∧ (∀ x, x ∈ (cRun events).produced → ∀ y, y ∈ (cRun events).produced →
        getIdForResource x = getIdForResource y → x = y)
    ∧ (∀ x ∈ (cRun events).storage.flatten, x ∈ (cRun events).produced)
    ∧ (∀ (n : Nat) (x : Item α),
        x ∈ (rotateN n (cRun events)).storage.flatten →
        x ∈ (cRun events).storage.flatten) := by
  have hrange := cRun_gen_produced events (initCollector α) (by rfl)
    (by simp only [initCollector, List.length_nil, maxSafeInteger] at *; omega)
  have hids : (cRun events).produced.map Item.stableId
      = List.range' 1 (collectCount events) := by
    have := hrange.1
    simpa [cRun, initCollector] using this
  have hnodup : ((cRun events).produced.map getIdForResource).Nodup := by
    have : getIdForResource (α := α) = Item.stableId := rfl
    rw [this, hids]
    exact List.nodup_range' 1 (collectCount events)
  refine ⟨hnodup, fun x hx y hy hxy => ?_, ?_, fun n x hx => rotateN_storage_subset n _ x hx⟩
  · exact List.inj_on_of_nodup_map hnodup hx hy hxy
  · exact cRun_storage_in_produced events (initCollector α) (by simp [initCollector])

/-- C4 witness: the stability/uniqueness theorem applied to a concrete
run collecting two items around a navigation. -/
theorem stable_id_stability_and_uniqueness_witness :
    collectCount ([.collect 7, .navigate, .collect 8] : List (CEvent Nat))
        ≤ maxSafeInteger - 1
    ∧ ((cRun ([.collect 7, .navigate, .collect 8] : List (CEvent Nat))).produced.map
        getIdForResource).Nodup := by
  have hc : collectCount ([.collect 7, .navigate, .collect 8] : List (CEvent Nat))
      ≤ maxSafeInteger - 1 := by decide
  exact ⟨hc, (stable_id_stability_and_uniqueness _ hc).1⟩

theorem cRun_storage_length {α : Type} (events : List (CEvent α)) :
    ∀ (s : CollectorState α), s.storage.length ≤ maxNavigationSaved →
      (events.foldl cStep s).storage.length ≤ maxNavigationSaved := by
  induction events with
  | nil => intro s h; exact h
  | cons e rest ih =>
    intro s h
    refine ih (cStep s e) ?_
    cases e with
    | collect v =>
      simp only [cStep, collectItem]
      rcases hs : s.storage with _ | ⟨ep, rest2⟩
      · simp [maxNavigationSaved]
      · rw [hs] at h; simpa using h
    | navigate =>
      simp only [cStep, splitAfterNavigation, List.length_take]
      omega

theorem wsRun_storage_length (events : List WSEvent) :
    ∀ (s : WSState), s.storage.length ≤ maxNavigationSaved →
      (events.foldl wsStep s).storage.length ≤ maxNavigationSaved := by
  induction events with
  | nil => intro s h; exact h
  | cons e rest ih =>
    intro s h
    refine ih (wsStep s e) ?_
    cases e with
    | created rid url now =>
      simp only [wsStep, wsOnCreated]
      rcases hs : s.storage with _ | ⟨ep, rest2⟩
      · simp [maxNavigationSaved]
      · rw [hs] at h; simpa using h
    | frameSent rid t op p =>
      simp only [wsStep, wsOnFrameSent]
      cases (wsCapturedMap s).lookup rid <;> simpa using h
    | frameReceived rid t op p =>
      simp only [wsStep, wsOnFrameReceived]
      cases (wsCapturedMap s).lookup rid <;> simpa using h
    | closedEvt rid t =>
      simp only [wsStep, wsOnClosed]
      cases (wsCapturedMap s).lookup rid <;> simpa using h
    | navigated =>
      simp only [wsStep, wsSplitAfterNavigation, List.length_take]
      omega

theorem epochLoop_eq_reverse {β : Type} (l : List β)
    (hlen : l.length ≤ 3) :
    (List.range 4).reverse.filterMap (fun i => l.get? i) = l.reverse := by
  match l, hlen with
  | [], _ => rfl
  | [a], _ => rfl
  | [a, b], _ => rfl
  | [a, b, c], _ => rfl

/-- C6: chronological ordering of `allItems`.  For every reachable state
of the generic collector and of the WebSocket collector, at most
`maxNavigationSaved` epochs are retained and `getData(page, true)` is
exactly the retained epochs concatenated oldest-epoch-first,
current-epoch-last (the epoch store keeps the newest epoch at the front,
so this is the reversed store, flattened). -/
theorem allItems_chronological {α : Type} (events : List (CEvent α))
    (wsEvents : List WSEvent) :
    (cRun events).storage.length ≤ maxNavigationSaved
    ∧ getData (cRun events) true = ((cRun events).storage.reverse).flatten
    ∧ (wsRun wsEvents).storage.length ≤ maxNavigationSaved
    ∧ wsGetData (wsRun wsEvents) true = ((wsRun wsEvents).storage.reverse).flatten := by
  have h1 : (cRun events).storage.length ≤ maxNavigationSaved :=
    cRun_storage_length events (initCollector α) (by simp [initCollector, maxNavigationSaved])
  have h2 : (wsRun wsEvents).storage.length ≤ maxNavigationSaved :=
    wsRun_storage_length wsEvents wsInit (by simp [wsInit, maxNavigationSaved])
  refine ⟨h1, ?_, h2, ?_⟩
  · have := epochLoop_eq_reverse (cRun events).storage
      (by simpa [maxNavigationSaved] using h1)
    simp only [getData, maxNavigationSaved, Bool.not_true, Bool.false_eq_true,
      if_false, this]
  · have := epochLoop_eq_reverse (wsRun wsEvents).storage
      (by simpa [maxNavigationSaved] using h2)
    simp only [wsGetData, maxNavigationSaved, Bool.not_true, Bool.false_eq_true,
      if_false, this]

/-! ## Lemmas about the fingerprint key -/

theorem hexDigitChar_ne_colon (n : Nat) (h : n < 16) : hexDigitChar n ≠ ':' := by
  interval_cases n <;> decide

theorem natToHexAux_no_colon (fuel : Nat) :
    ∀ (n : Nat), ∀ c ∈ natToHexAux fuel n, c ≠ ':' := by
  induction fuel with
  | zero =>
    intro n c hc
    rw [natToHexAux, List.mem_singleton] at hc
    subst hc
    exact hexDigitChar_ne_colon _ (Nat.mod_lt n (by norm_num))
  | succ fuel ih =>
    intro n c hc
    rw [natToHexAux] at hc
    split_ifs at hc with h
    · rw [List.mem_singleton] at hc
      subst hc
      exact hexDigitChar_ne_colon n h
    · rw [List.mem_append] at hc
      rcases hc with hc | hc
      · exact ih (n / 16) c hc
      · rw [List.mem_singleton] at hc
        subst hc
        exact hexDigitChar_ne_colon _ (Nat.mod_lt n (by norm_num))

theorem natToHex_no_colon (n : Nat) : ∀ c ∈ natToHex n, c ≠ ':' :=
  natToHexAux_no_colon n n

theorem padStart2_no_colon (l : List Char) (h : ∀ c ∈ l, c ≠ ':') :
    ∀ c ∈ padStart2 l, c ≠ ':' := by
  intro c hc
  unfold padStart2 at hc
  split_ifs at hc
  · rw [List.mem_append] at hc
    rcases hc with hc | hc
    · have := List.eq_of_mem_replicate hc
      subst this
      decide
    · exact h c hc
  · exact h c hc

theorem charHex_no_colon (c : Char) : ∀ x ∈ charHex c, x ≠ ':' :=
  padStart2_no_colon _ (natToHex_no_colon _)

theorem base64ToHex_no_colon (s : String) (maxBytes : Nat) :
    ∀ c ∈ base64ToHex s maxBytes, c ≠ ':' := by
  intro c hc
  unfold base64ToHex at hc
  rcases h : atobBytes s with _ | bytes
  · rw [h] at hc
    simp at hc
  · rw [h] at hc
    simp only [List.mem_flatten, List.mem_map] at hc
    obtain ⟨l, ⟨b, _, hb⟩, hcl⟩ := hc
    subst hb
    exact padStart2_no_colon _ (natToHex_no_colon _) c hcl

theorem getHead4B_no_colon (payload : String) (opcode : Nat) :
    ':' ∉ getHead4B payload opcode := by
  intro hc
  unfold getHead4B at hc
  split_ifs at hc
  · exact base64ToHex_no_colon payload 4 ':' hc rfl
  · simp only [List.mem_flatten, List.mem_map] at hc
    obtain ⟨l, ⟨ch, _, hch⟩, hcl⟩ := hc
    subst hch
    exact charHex_no_colon ch ':' hcl rfl

theorem colon_split (a : List Char) :
    ∀ (b x y : List Char), ':' ∉ a → ':' ∉ b →
      a ++ ':' :: x = b ++ ':' :: y → a = b ∧ x = y := by
  induction a with
  | nil =>
    intro b x y _ hb h
    cases b with
    | nil => simpa using h
    | cons d bs =>
      exfalso
      simp only [List.nil_append, List.cons_append, List.cons.injEq] at h
      exact hb (h.1 ▸ List.mem_cons_self d bs)
  | cons c as ih =>
    intro b x y ha hb h
    cases b with
    | nil =>
      exfalso
      simp only [List.cons_append, List.nil_append, List.cons.injEq] at h
      exact ha (h.1 ▸ List.mem_cons_self c as)
    | cons d bs =>
      simp only [List.cons_append, List.cons.injEq] at h
      obtain ⟨rfl, h2⟩ := h
      have := ih bs x y (fun hm => ha (List.mem_cons_of_mem _ hm))
        (fun hm => hb (List.mem_cons_of_mem _ hm)) h2
      exact ⟨by rw [this.1], this.2⟩

theorem dirChars_inj (d d2 : WSDir) (h : dirChars d = dirChars d2) : d = d2 := by
  cases d <;> cases d2 <;> first
    | rfl
    | (exfalso; revert h; decide)

theorem catChars_inj (c c2 : SizeCategory) (h : catChars c = catChars c2) : c = c2 := by
  cases c <;> cases c2 <;> first
    | rfl
    | (exfalso; revert h; decide)

theorem dirChars_no_colon (d : WSDir) : ':' ∉ dirChars d := by
  cases d <;> decide

theorem mkKey_inj (d d2 : WSDir) (h h2 : List Char) (c c2 : SizeCategory)
    (hh : ':' ∉ h) (hh2 : ':' ∉ h2) (he : mkKey d h c = mkKey d2 h2 c2) :
    d = d2 ∧ h = h2 ∧ c = c2 := by
  unfold mkKey at he
  obtain ⟨e1, e2⟩ := colon_split _ _ _ _ (dirChars_no_colon d) (dirChars_no_colon d2) he
  have hcc : ':' ∉ catChars c := by cases c <;> decide
  have hcc2 : ':' ∉ catChars c2 := by cases c2 <;> decide
  obtain ⟨e3, e4⟩ := colon_split _ _ _ _ hh hh2 e2
  exact ⟨dirChars_inj _ _ e1, e3, catChars_inj _ _ e4⟩

/-! ## Invariants of the grouping loop -/

/-- All frame indexes stored in the accumulator, in entry order. -/
def accIdx (acc : List (List Char × GroupAcc)) : List Nat :=
  (acc.map (fun p => p.2.indices)).flatten

/-- The invariant carried through the `frames.forEach` loop: keys are
distinct, every entry's key is the key of its own stored triple, heads
are colon-free (so keys determine triples), index lists are strictly
increasing and below the bound, and every stored index points back to a
frame of `frames` whose computed triple is the entry's triple. -/
def GroupInv (frames : List WSFrame) (bound : Nat)
    (acc : List (List Char × GroupAcc)) : Prop :=
  (acc.map Prod.fst).Nodup
  ∧ ∀ p ∈ acc,
      p.2.indices.Pairwise (· < ·)
      ∧ (∀ i ∈ p.2.indices, i < bound)
      ∧ p.1 = mkKey p.2.direction p.2.head4B p.2.sizeCategory
      ∧ ':' ∉ p.2.head4B
      ∧ ∀ i ∈ p.2.indices, ∃ f, frames.get? i = some f
          ∧ f.direction = p.2.direction
          ∧ getHead4B f.payloadData f.opcode = p.2.head4B
          ∧ getSizeCategory f.payloadData.length = p.2.sizeCategory

theorem upsert_map_fst (key : List Char) (f : WSFrame) (i : Nat)
    (acc : List (List Char × GroupAcc)) :
    (upsertFrame key f i acc).map Prod.fst
      = if key ∈ acc.map Prod.fst then acc.map Prod.fst
        else acc.map Prod.fst ++ [key] := by
  induction acc with
  | nil => simp [upsertFrame]
  | cons p rest ih =>
    obtain ⟨k2, g⟩ := p
    by_cases hk : k2 = key
    · subst hk
      simp only [upsertFrame, if_pos rfl, List.map_cons, List.mem_cons, true_or,
        if_true]
    · simp only [upsertFrame, if_neg hk, List.map_cons, ih, List.mem_cons]
      have : ¬ key = k2 := fun h => hk h.symm
      by_cases hmem : key ∈ rest.map Prod.fst
      · simp [hmem, this]
      · simp [hmem, this]


theorem perm_append_middle {β : Type} (a b : List β) (x : β) :
    ((a ++ [x]) ++ b).Perm ((a ++ b) ++ [x]) := by
  rw [List.append_assoc, List.append_assoc]
  exact List.Perm.append_left a List.perm_append_comm

theorem upsert_inv (frames : List WSFrame) (bound : Nat)
    (acc : List (List Char × GroupAcc)) (i : Nat) (f : WSFrame)
    (hinv : GroupInv frames bound acc) (hb : bound ≤ i)
    (hf : frames.get? i = some f) :
    GroupInv frames (i + 1) (upsertFrame (frameKey f) f i acc)
    ∧ (accIdx (upsertFrame (frameKey f) f i acc)).Perm (accIdx acc ++ [i]) := by
  obtain ⟨hnodup, hents⟩ := hinv
  induction acc with
  | nil =>
    refine ⟨⟨by simp [upsertFrame], ?_⟩, by simp [upsertFrame, accIdx]⟩
    intro p hp
    simp only [upsertFrame, List.mem_singleton] at hp
    subst hp
    refine ⟨by simp, by simp, rfl, getHead4B_no_colon _ _, ?_⟩
    intro j hj
    rw [List.mem_singleton] at hj
    subst hj
    exact ⟨f, hf, rfl, rfl, rfl⟩
  | cons p rest ih =>
    obtain ⟨k2, g⟩ := p
    have hent := hents (k2, g) (List.mem_cons_self _ _)
    obtain ⟨hpw, hlt, hkey, hcol, hlink⟩ := hent
    by_cases hk : k2 = frameKey f
    · -- the frame joins the existing head entry
      have htriple : f.direction = g.direction
          ∧ getHead4B f.payloadData f.opcode = g.head4B
          ∧ getSizeCategory f.payloadData.length = g.sizeCategory := by
        have he : mkKey f.direction (getHead4B f.payloadData f.opcode)
            (getSizeCategory f.payloadData.length)
            = mkKey g.direction g.head4B g.sizeCategory := by
          rw [← hkey, hk]; rfl
        obtain ⟨e1, e2, e3⟩ := mkKey_inj _ _ _ _ _ _
          (getHead4B_no_colon _ _) hcol he
        exact ⟨e1, e2, e3⟩
      constructor
      · constructor
        · simpa only [upsertFrame, if_pos hk, List.map_cons] using hnodup
        · intro q hq
          simp only [upsertFrame, if_pos hk, List.mem_cons] at hq
          rcases hq with hq | hq
          · subst hq
            refine ⟨?_, ?_, by simpa using hkey, by simpa using hcol, ?_⟩
            · simp only [List.pairwise_append]
              refine ⟨hpw, by simp, ?_⟩
              intro a ha b hbmem
              rw [List.mem_singleton] at hbmem
              subst hbmem
              exact lt_of_lt_of_le (hlt a ha) hb
            · intro j hj
              simp only [List.mem_append, List.mem_singleton] at hj
              rcases hj with hj | hj
              · exact lt_trans (lt_of_lt_of_le (hlt j hj) hb) (Nat.lt_succ_self i)
              · omega
            · intro j hj
              simp only [List.mem_append, List.mem_singleton] at hj
              rcases hj with hj | hj
              · obtain ⟨f2, h1, h2, h3, h4⟩ := hlink j hj
                exact ⟨f2, h1, by simpa using h2, by simpa using h3, by simpa using h4⟩
              · subst hj
                exact ⟨f, hf, by simpa using htriple.1, by simpa using htriple.2.1,
                  by simpa using htriple.2.2⟩
          · obtain ⟨h1, h2, h3, h4, h5⟩ := hents q (List.mem_cons_of_mem _ hq)
            exact ⟨h1, fun j hj => lt_trans (lt_of_lt_of_le (h2 j hj) hb)
              (Nat.lt_succ_self i), h3, h4, h5⟩
      · simp only [upsertFrame, if_pos hk, accIdx, List.map_cons, List.flatten_cons]
        exact perm_append_middle g.indices _ i
    · -- the frame upserts into the tail
      have hnodup2 : (rest.map Prod.fst).Nodup := (List.nodup_cons.mp hnodup).2
      have hk2notin : k2 ∉ rest.map Prod.fst := (List.nodup_cons.mp hnodup).1
      obtain ⟨⟨ihnodup, ihents⟩, ihperm⟩ := ih hnodup2
        (fun q hq => hents q (List.mem_cons_of_mem _ hq))
      constructor
      · constructor
        · simp only [upsertFrame, if_neg hk, List.map_cons]
          rw [List.nodup_cons]
          refine ⟨?_, ihnodup⟩
          rw [upsert_map_fst]
          split_ifs with hmem
          · exact hk2notin
          · rw [List.mem_append]
            rintro (hbad | hbad)
            · exact hk2notin hbad
            · rw [List.mem_singleton] at hbad
              exact hk hbad
        · intro q hq
          simp only [upsertFrame, if_neg hk, List.mem_cons] at hq
          rcases hq with hq | hq
          · subst hq
            exact ⟨hpw, fun j hj => lt_trans (lt_of_lt_of_le (hlt j hj) hb)
              (Nat.lt_succ_self i), hkey, hcol, hlink⟩
          · exact ihents q hq
      · simp only [upsertFrame, if_neg hk, accIdx, List.map_cons, List.flatten_cons]
        refine List.Perm.trans (List.Perm.append_left _ ihperm) ?_
        rw [← List.append_assoc]
        exact List.Perm.refl _

theorem buildGroupsAux_inv (frames : List WSFrame) :
    ∀ (ps : List (Nat × WSFrame)) (acc : List (List Char × GroupAcc)) (bound : Nat),
      GroupInv frames bound acc →
      (∀ q ∈ ps, bound ≤ q.1) →
      (ps.map Prod.fst).Pairwise (· < ·) →
      (∀ q ∈ ps, frames.get? q.1 = some q.2) →
      (∃ bound2, GroupInv frames bound2 (buildGroupsAux acc ps))
      ∧ (accIdx (buildGroupsAux acc ps)).Perm (accIdx acc ++ ps.map Prod.fst) := by
  intro ps
  induction ps with
  | nil =>
    intro acc bound hinv _ _ _
    exact ⟨⟨bound, hinv⟩, by simp [buildGroupsAux]⟩
  | cons q rest ih =>
    intro acc bound hinv hlow hpair hget
    obtain ⟨i, f⟩ := q
    have hb : bound ≤ i := hlow (i, f) (List.mem_cons_self _ _)
    have hf : frames.get? i = some f := hget (i, f) (List.mem_cons_self _ _)
    obtain ⟨hinv2, hperm2⟩ := upsert_inv frames bound acc i f hinv hb hf
    have hlow2 : ∀ q2 ∈ rest, i + 1 ≤ q2.1 := by
      intro q2 hq2
      have := (List.pairwise_cons.mp hpair).1 q2.1 (List.mem_map_of_mem Prod.fst hq2)
      omega
    have hpair2 : (rest.map Prod.fst).Pairwise (· < ·) :=
      (List.pairwise_cons.mp hpair).2
    have hget2 : ∀ q2 ∈ rest, frames.get? q2.1 = some q2.2 :=
      fun q2 hq2 => hget q2 (List.mem_cons_of_mem _ hq2)
    obtain ⟨hex, hperm3⟩ := ih (upsertFrame (frameKey f) f i acc) (i + 1)
      hinv2 hlow2 hpair2 hget2
    refine ⟨hex, ?_⟩
    simp only [buildGroupsAux] at *
    refine List.Perm.trans hperm3 ?_
    refine List.Perm.trans (List.Perm.append_right _ hperm2) ?_
    rw [List.append_assoc]
    exact List.Perm.refl _

theorem buildGroups_inv (frames : List WSFrame) :
    (∃ bound, GroupInv frames bound (buildGroups frames))
    ∧ (accIdx (buildGroups frames)).Perm (List.range frames.length) := by
  have h := buildGroupsAux_inv frames frames.enum [] 0
    ⟨by simp, by simp⟩
    (fun q _ => Nat.zero_le _)
    (by rw [List.enum_map_fst]; exact List.pairwise_lt_range _)
    (fun q hq => by
      obtain ⟨a, b⟩ := q
      exact List.mk_mem_enum_iff_get?.mp hq)
  obtain ⟨hex, hperm⟩ := h
  refine ⟨hex, ?_⟩
  rw [buildGroups]
  refine List.Perm.trans hperm ?_
  rw [List.enum_map_fst]
  simp [accIdx]

theorem nodup_flatten_pairwise_disjoint {β : Type} (L : List (List β))
    (h : L.flatten.Nodup) :
    L.Pairwise (fun l1 l2 => ∀ x ∈ l1, x ∉ l2) := by
  induction L with
  | nil => exact List.Pairwise.nil
  | cons l L ih =>
    rw [List.flatten_cons, List.nodup_append] at h
    obtain ⟨_, h2, h3⟩ := h
    refine List.Pairwise.cons ?_ (ih h2)
    intro l2 hl2 x hx hx2
    exact h3 hx (List.mem_flatten.mpr ⟨l2, hl2, hx2⟩)

theorem analyze_groups_eq (frames : List WSFrame) (wsid : Nat) (url : String) :
    (analyzeWebSocketFramesV2 frames wsid url).groups
      = ((buildGroups frames).insertionSort groupCountGe).enum.map (fun p =>
          { id := generateGroupId p.1
            direction := p.2.2.direction
            head4B := p.2.2.head4B
            sizeCategory := p.2.2.sizeCategory
            count := p.2.2.indices.length
            minSize := p.2.2.minSize
            maxSize := p.2.2.maxSize
            hint := guessHintFromHead p.2.2.head4B
            sampleIndices := p.2.2.indices.take 3 }) := rfl

theorem analyze_gti_eq (frames : List WSFrame) (wsid : Nat) (url : String) :
    (analyzeWebSocketFramesV2 frames wsid url).groupToIndices
      = ((buildGroups frames).insertionSort groupCountGe).enum.map (fun p =>
          (generateGroupId p.1, p.2.2.indices)) := rfl

theorem analyze_total_eq (frames : List WSFrame) (wsid : Nat) (url : String) :
    (analyzeWebSocketFramesV2 frames wsid url).totalFrames = frames.length := rfl

theorem gti_map_snd (frames : List WSFrame) (wsid : Nat) (url : String) :
    (analyzeWebSocketFramesV2 frames wsid url).groupToIndices.map Prod.snd
      = ((buildGroups frames).insertionSort groupCountGe).map (fun e => e.2.indices) := by
  rw [analyze_gti_eq, List.map_map]
  have h1 : (Prod.snd ∘ fun p : Nat × (List Char × GroupAcc) =>
      (generateGroupId p.1, p.2.2.indices))
      = (fun e : List Char × GroupAcc => e.2.indices) ∘ Prod.snd := rfl
  rw [h1, ← List.map_map]
  rw [List.enum_map_snd]

theorem gti_flatten_perm (frames : List WSFrame) (wsid : Nat) (url : String) :
    (((analyzeWebSocketFramesV2 frames wsid url).groupToIndices.map
        Prod.snd).flatten).Perm (List.range frames.length) := by
  rw [gti_map_snd]
  have hE : (((buildGroups frames).insertionSort groupCountGe).map
      (fun e => e.2.indices)).Perm ((buildGroups frames).map (fun e => e.2.indices)) :=
    (List.perm_insertionSort groupCountGe (buildGroups frames)).map _
  exact (hE.flatten).trans (buildGroups_inv frames).2

theorem mem_sorted_entries {e : List Char × GroupAcc} {frames : List WSFrame}
    (he : e ∈ (buildGroups frames).insertionSort groupCountGe) :
    e ∈ buildGroups frames :=
  (List.perm_insertionSort groupCountGe (buildGroups frames)).mem_iff.mp he


/-- C10: the group index lists partition the frame list.  For every
summary produced by `analyzeWebSocketFramesV2` on `n` frames: the index
lists stored in `groupToIndices` are pairwise disjoint and together are a
permutation of `0, …, n-1` (their union is exactly that set, with no
duplicates); each index list is strictly increasing; the group at each
rank pairs with that rank's full index list, its `count` being the list's
length and its `sampleIndices` the first `min(3, count)` entries of it;
and the group counts sum to `totalFrames = n`. -/
theorem analyze_partition_invariants (frames : List WSFrame) (wsid : Nat)
    (url : String) :
    ((((analyzeWebSocketFramesV2 frames wsid url).groupToIndices.map
        Prod.snd).flatten).Perm (List.range frames.length))
    ∧ ((analyzeWebSocketFramesV2 frames wsid url).groupToIndices.map
        Prod.snd).Pairwise (fun l1 l2 => ∀ i ∈ l1, i ∉ l2)
    ∧ (∀ p ∈ (analyzeWebSocketFramesV2 frames wsid url).groupToIndices,
        p.2.Pairwise (· < ·))
    ∧ (∀ k g, (analyzeWebSocketFramesV2 frames wsid url).groups.get? k = some g →
        ∃ l, (analyzeWebSocketFramesV2 frames wsid url).groupToIndices.get? k
            = some (g.id, l)
          ∧ g.count = l.length ∧ g.sampleIndices = l.take 3)
    ∧ (((analyzeWebSocketFramesV2 frames wsid url).groups.map
        MessageGroupV2.count).sum
        = (analyzeWebSocketFramesV2 frames wsid url).totalFrames)
    ∧ (analyzeWebSocketFramesV2 frames wsid url).totalFrames = frames.length := by
  have hperm := gti_flatten_perm frames wsid url
  have hnd : (((analyzeWebSocketFramesV2 frames wsid url).groupToIndices.map
      Prod.snd).flatten).Nodup :=
    hperm.nodup_iff.mpr (List.nodup_range _)
  refine ⟨hperm, nodup_flatten_pairwise_disjoint _ hnd, ?_, ?_, ?_, rfl⟩
  · intro p hp
    rw [analyze_gti_eq] at hp
    obtain ⟨q, hq, hqp⟩ := List.mem_map.mp hp
    have hq2 : q.2 ∈ (buildGroups frames).insertionSort groupCountGe := by
      have := List.mem_map_of_mem Prod.snd hq
      rwa [List.enum_map_snd] at this
    have he := mem_sorted_entries hq2
    obtain ⟨⟨bound, hinv⟩, _⟩ := buildGroups_inv frames
    have := (hinv.2 q.2 he).1
    rw [← hqp]
    exact this
  · intro k g hg
    rw [analyze_groups_eq, List.get?_map, List.enum_get?] at hg
    rw [Option.map_map] at hg
    obtain ⟨e, he, hFe⟩ := Option.map_eq_some'.mp hg
    refine ⟨e.2.indices, ?_, ?_, ?_⟩
    · rw [analyze_gti_eq, List.get?_map, List.enum_get?, Option.map_map, he]
      simp only [Option.map_some', Function.comp]
      rw [← hFe]
      rfl
    · rw [← hFe]
      rfl
    · rw [← hFe]
      rfl
  · rw [analyze_groups_eq, analyze_total_eq, List.map_map]
    have h1 : (MessageGroupV2.count ∘ fun p : Nat × (List Char × GroupAcc) =>
        ({ id := generateGroupId p.1
           direction := p.2.2.direction
           head4B := p.2.2.head4B
           sizeCategory := p.2.2.sizeCategory
           count := p.2.2.indices.length
           minSize := p.2.2.minSize
           maxSize := p.2.2.maxSize
           hint := guessHintFromHead p.2.2.head4B
           sampleIndices := p.2.2.indices.take 3 } : MessageGroupV2))
        = (fun e : List Char × GroupAcc => e.2.indices.length) ∘ Prod.snd := rfl
    rw [h1, ← List.map_map, List.enum_map_snd]
    have h2 : ((buildGroups frames).insertionSort groupCountGe).map
        (fun e : List Char × GroupAcc => e.2.indices.length)
        = (((buildGroups frames).insertionSort groupCountGe).map
            (fun e : List Char × GroupAcc => e.2.indices)).map List.length := by
      rw [List.map_map]; rfl
    rw [h2, ← List.length_flatten]
    have hp2 : ((((buildGroups frames).insertionSort groupCountGe).map
        (fun e : List Char × GroupAcc => e.2.indices)).flatten).Perm
        (List.range frames.length) := by
      have hE : (((buildGroups frames).insertionSort groupCountGe).map
          (fun e => e.2.indices)).Perm
          ((buildGroups frames).map (fun e => e.2.indices)) :=
        (List.perm_insertionSort groupCountGe (buildGroups frames)).map _
      exact (hE.flatten).trans (buildGroups_inv frames).2
    rw [hp2.length_eq, List.length_range]

/-- 27 frames with pairwise distinct fingerprints (the leading `!` keeps
the payloads off the base64 path), all sent, all `tiny`, producing 27
distinct single-member groups in capture order. -/
def c8Frames : List WSFrame :=
  ["!A", "!B", "!C", "!D", "!E", "!F", "!G", "!H", "!I", "!J", "!K", "!L", "!M",
   "!N", "!O", "!P", "!Q", "!R", "!S", "!T", "!U", "!V", "!W", "!X", "!Y", "!Z",
   "!a"].map (fun p =>
    { requestId := "w", direction := .sent, timestamp := 0, opcode := 1
      payloadData := p })

/-- C8: group identifiers follow the bijective base-26 letter encoding of
the group's rank in the descending-count sorted order: every group stored
at rank `idx` in the summary has id `generateGroupId idx`, with rank
0 → "A", 25 → "Z", 26 → "AA", 27 → "AB"; in particular an analysis
yielding 27 distinct groups gives the 27th group the id "AA". -/
theorem groupId_sequence :
    (∀ (frames : List WSFrame) (wsid : Nat) (url : String) (idx : Nat)
        (g : MessageGroupV2),
        (analyzeWebSocketFramesV2 frames wsid url).groups.get? idx = some g →
        g.id = generateGroupId idx)
    ∧ generateGroupId 0 = "A".data
    ∧ generateGroupId 25 = "Z".data
    ∧ generateGroupId 26 = "AA".data
    ∧ generateGroupId 27 = "AB".data
    ∧ (analyzeWebSocketFramesV2 c8Frames 1 "u").groups.length = 27
    ∧ ((analyzeWebSocketFramesV2 c8Frames 1 "u").groups.get? 26).map
        MessageGroupV2.id = some "AA".data := by
  refine ⟨?_, by decide, by decide, by decide, by decide, by decide, by decide⟩
  intro frames wsid url idx g hg
  rw [analyze_groups_eq, List.get?_map, List.enum_get?, Option.map_map] at hg
  obtain ⟨e, _, hFe⟩ := Option.map_eq_some'.mp hg
  rw [← hFe]
  rfl

/-- C8 witness: the rank-to-id theorem applied to the 27-group analysis
at rank 26, whose group is computed explicitly. -/
theorem groupId_sequence_witness :
    (analyzeWebSocketFramesV2 c8Frames 1 "u").groups.get? 26
        = some ⟨"AA".data, .sent, "2161".data, .tiny, 1, 2, 2, "-".data, [26]⟩
    ∧ (⟨"AA".data, .sent, "2161".data, .tiny, 1, 2, 2, "-".data,
        [26]⟩ : MessageGroupV2).id = generateGroupId 26 := by
  have h : (analyzeWebSocketFramesV2 c8Frames 1 "u").groups.get? 26
      = some ⟨"AA".data, .sent, "2161".data, .tiny, 1, 2, 2, "-".data, [26]⟩ := by
    decide
  exact ⟨h, groupId_sequence.1 c8Frames 1 "u" 26 _ h⟩

/-- C10 witness: the partition theorem applied to a one-frame analysis,
instantiating the per-rank alignment at rank 0 with the computed group. -/
theorem analyze_partition_invariants_witness :
    (analyzeWebSocketFramesV2 [⟨"w", .sent, 0, 1, "!A"⟩] 1 "u").groups.get? 0
        = some ⟨"A".data, .sent, "2141".data, .tiny, 1, 2, 2, "-".data, [0]⟩
    ∧ ∃ l, (analyzeWebSocketFramesV2 [⟨"w", .sent, 0, 1, "!A"⟩] 1 "u").groupToIndices.get? 0
          = some ((⟨"A".data, .sent, "2141".data, .tiny, 1, 2, 2, "-".data,
              [0]⟩ : MessageGroupV2).id, l)
        ∧ (⟨"A".data, .sent, "2141".data, .tiny, 1, 2, 2, "-".data,
            [0]⟩ : MessageGroupV2).count = l.length
        ∧ (⟨"A".data, .sent, "2141".data, .tiny, 1, 2, 2, "-".data,
            [0]⟩ : MessageGroupV2).sampleIndices = l.take 3 := by
  have h : (analyzeWebSocketFramesV2 [⟨"w", .sent, 0, 1, "!A"⟩] 1 "u").groups.get? 0
      = some ⟨"A".data, .sent, "2141".data, .tiny, 1, 2, 2, "-".data, [0]⟩ := by
    decide
  exact ⟨h, (analyze_partition_invariants [⟨"w", .sent, 0, 1, "!A"⟩] 1 "u").2.2.2.1 0 _ h⟩

/-- A binary frame whose base64 payload is 32 characters long but decodes
to 24 bytes. -/
def c7Frame : WSFrame :=
  { requestId := "w", direction := .received, timestamp := 0, opcode := 2
    payloadData := "QUFBQUFBQUFBQUFBQUFBQUFBQUFBQUFB" }

/-- C7 counterexample: the claim computes the bucket from the payload
byte length also for base64-encoded binary frames.  For `c7Frame` the
payload byte length is 24, whose bucket is `tiny` (24 < 32), but the
engine buckets the frame as `small`: it uses the base64 string length 32,
not the decoded byte length. -/
theorem sizeCategory_encoded_length_counterexample :
    c7Frame.opcode = 2
    ∧ base64ByteLength c7Frame.payloadData = 24
    ∧ getSizeCategory (base64ByteLength c7Frame.payloadData) = SizeCategory.tiny
    ∧ c7Frame.payloadData.length = 32
    ∧ (analyzeWebSocketFramesV2 [c7Frame] 1 "u").groups.map
        MessageGroupV2.sizeCategory = [SizeCategory.small]
    ∧ SizeCategory.small ≠ SizeCategory.tiny := by
  refine ⟨rfl, by decide, by decide, by decide, by decide, by decide⟩

/-- C7 (amended): the engine computes the size bucket from the frame's
`payloadData` string length — for binary frames that is the length of the
base64-encoded text, not the decoded byte length — with the fixed
thresholds tiny < 32 ≤ small < 128 ≤ medium < 512 ≤ large < 2048 ≤
xlarge; every frame of a group is bucketed by `getSizeCategory` of its
`payloadData` length into exactly that group's `sizeCategory` (and shares
the group's direction and fingerprint). -/
theorem sizeCategory_from_encoded_length :
    (∀ n : Nat,
        (getSizeCategory n = SizeCategory.tiny ↔ n < 32)
        ∧ (getSizeCategory n = SizeCategory.small ↔ 32 ≤ n ∧ n < 128)
        ∧ (getSizeCategory n = SizeCategory.medium ↔ 128 ≤ n ∧ n < 512)
        ∧ (getSizeCategory n = SizeCategory.large ↔ 512 ≤ n ∧ n < 2048)
        ∧ (getSizeCategory n = SizeCategory.xlarge ↔ 2048 ≤ n))
    ∧ (∀ (frames : List WSFrame) (wsid : Nat) (url : String) (k : Nat)
        (g : MessageGroupV2) (l : List Char × List Nat) (i : Nat) (f : WSFrame),
        (analyzeWebSocketFramesV2 frames wsid url).groups.get? k = some g →
        (analyzeWebSocketFramesV2 frames wsid url).groupToIndices.get? k = some l →
        i ∈ l.2 → frames.get? i = some f →
        g.sizeCategory = getSizeCategory f.payloadData.length
        ∧ g.direction = f.direction
        ∧ g.head4B = getHead4B f.payloadData f.opcode) := by
  constructor
  · intro n
    refine ⟨?_, ?_, ?_, ?_, ?_⟩ <;>
      (unfold getSizeCategory; split_ifs <;> simp <;> omega)
  · intro frames wsid url k g l i f hg hl hi hf
    rw [analyze_groups_eq, List.get?_map, List.enum_get?, Option.map_map] at hg
    obtain ⟨e, he, hFe⟩ := Option.map_eq_some'.mp hg
    rw [analyze_gti_eq, List.get?_map, List.enum_get?, Option.map_map, he] at hl
    simp only [Option.map_some', Function.comp] at hl
    have hl2 : l = (generateGroupId k, e.2.indices) := by
      exact (Option.some.injEq _ _).mp hl.symm
    have hmem : e ∈ (buildGroups frames).insertionSort groupCountGe :=
      List.get?_mem he
    have he2 := mem_sorted_entries hmem
    obtain ⟨⟨bound, hinv⟩, _⟩ := buildGroups_inv frames
    obtain ⟨_, _, _, _, hlink⟩ := hinv.2 e he2
    have hi2 : i ∈ e.2.indices := by rw [hl2] at hi; exact hi
    obtain ⟨f2, hf2, hdir, hhead, hsize⟩ := hlink i hi2
    have hff : f2 = f := by
      rw [hf2] at hf
      exact (Option.some.injEq _ _).mp hf
    subst hff
    refine ⟨?_, ?_, ?_⟩
    · rw [← hFe]; exact hsize.symm
    · rw [← hFe]; exact hdir.symm
    · rw [← hFe]; exact hhead.symm

/-- C7 amended witness: the theorem applied to the one-frame analysis of
`c7Frame`, with the group and index entry computed explicitly. -/
theorem sizeCategory_from_encoded_length_witness :
    (analyzeWebSocketFramesV2 [c7Frame] 1 "u").groups.get? 0
        = some ⟨"A".data, .received, "41414141".data, .small, 1, 32, 32, "-".data, [0]⟩
    ∧ (analyzeWebSocketFramesV2 [c7Frame] 1 "u").groupToIndices.get? 0
        = some ("A".data, [0])
    ∧ (⟨"A".data, .received, "41414141".data, .small, 1, 32, 32, "-".data,
        [0]⟩ : MessageGroupV2).sizeCategory
        = getSizeCategory c7Frame.payloadData.length
    ∧ (⟨"A".data, .received, "41414141".data, .small, 1, 32, 32, "-".data,
        [0]⟩ : MessageGroupV2).direction = c7Frame.direction
    ∧ (⟨"A".data, .received, "41414141".data, .small, 1, 32, 32, "-".data,
        [0]⟩ : MessageGroupV2).head4B
        = getHead4B c7Frame.payloadData c7Frame.opcode := by
  have hg : (analyzeWebSocketFramesV2 [c7Frame] 1 "u").groups.get? 0
      = some ⟨"A".data, .received, "41414141".data, .small, 1, 32, 32, "-".data,
        [0]⟩ := by decide
  have hl : (analyzeWebSocketFramesV2 [c7Frame] 1 "u").groupToIndices.get? 0
      = some ("A".data, [0]) := by decide
  have h := sizeCategory_from_encoded_length.2 [c7Frame] 1 "u" 0 _ _ 0 c7Frame
    hg hl (by decide) (by decide)
  exact ⟨hg, hl, h.1, h.2.1, h.2.2⟩
